import Mathlib

set_option maxHeartbeats 1000000

namespace GitTools
/-- Byte strings (Python `bytes` / `bytearray`) are modelled as lists of
naturals, one per byte. -/
abbrev Bytes := List Nat

/-- Model of `str.encode()` for the ASCII strings the program builds. -/
def encodeStr (s : String) : Bytes := s.data.map Char.toNat

/-- Model of `bytes.decode()`, the inverse of `encodeStr` on the byte range
the program produces. -/
def decodeBytes (bs : Bytes) : String := String.mk (bs.map Char.ofNat)

/-- Model of Python `bytes.splitlines(keepends=True)`: split after every
LF (10), CR (13) or CRLF, keeping the line terminators.  The accumulator
holds the bytes of the current unfinished line in reverse order. -/
def splitlinesAux : Bytes → Bytes → List Bytes
  | [], acc => if acc.isEmpty then [] else [acc.reverse]
  | b :: rest, acc =>
    if b = 10 then (acc.reverse ++ [10]) :: splitlinesAux rest []
    else if b = 13 then
      match rest with
      | [] => [acc.reverse ++ [13]]
      | r :: rest2 =>
        if r = 10 then (acc.reverse ++ [13, 10]) :: splitlinesAux rest2 []
        else (acc.reverse ++ [13]) :: splitlinesAux (r :: rest2) []
    else splitlinesAux rest (b :: acc)

/-- Model of `buf.splitlines(keepends=True)` on a whole captured buffer. -/
def splitlines (bs : Bytes) : List Bytes := splitlinesAux bs []

/-- A byte list containing no line terminator. -/
def noNL (bs : Bytes) : Prop := ∀ x ∈ bs, x ≠ 10 ∧ x ≠ 13

instance (bs : Bytes) : Decidable (noNL bs) := by
  unfold noNL
  infer_instance

/-- A directory tree as the program observes it: the directory's name,
whether a `git -C <dir> rev-parse` probe succeeds in it (`is_git_repo`),
and its immediate subdirectories (`iterdir` restricted to directories). -/
inductive DirTree where
  | node (dirName : String) (isRepo : Bool) (subdirs : List DirTree)

def DirTree.dirName : DirTree → String
  | .node n _ _ => n

def DirTree.isRepo : DirTree → Bool
  | .node _ r _ => r

def DirTree.subdirs : DirTree → List DirTree
  | .node _ _ cs => cs

/-- Model of `find_git_repos(parent, depth)` (git-r.py lines 35-61).  The
probe of `parent` happens before the depth test; a directory that is a
repo is returned without descending; a non-repo child still holding depth
budget is expanded into probes of its own children with the budget
decremented.  The wave/future structure of the source only affects the
order of the returned list, which this model determinises. -/
def findGitRepos (depth : Nat) (t : DirTree) (pre : String) : List String :=
  if t.isRepo then [pre ++ "/" ++ t.dirName]
  else
    match depth with
    | 0 => []
    | d + 1 => (t.subdirs).flatMap fun c => findGitRepos d c (pre ++ "/" ++ t.dirName)

/-- Same traversal, additionally returning the list of directories that
`is_git_repo` was run on, to state that a repo root's subdirectories are
never probed. -/
def findGitReposProbed (depth : Nat) (t : DirTree) (pre : String) :
    List String × List String :=
  let p := pre ++ "/" ++ t.dirName
  if t.isRepo then ([p], [p])
  else
    match depth with
    | 0 => ([], [p])
    | d + 1 =>
      let rs := (t.subdirs).map fun c => findGitReposProbed d c p
      ((rs.map Prod.fst).flatten, p :: (rs.map Prod.snd).flatten)

/-- Descend from a node along a list of child indices. -/
def descend : DirTree → List Nat → Option DirTree
  | t, [] => some t
  | t, i :: is => (t.subdirs[i]?).bind fun c => descend c is

/-- Path string of the node reached along a list of child indices,
accumulating names the way `find_git_repos` builds paths. -/
def pathAt (pre : String) (t : DirTree) : List Nat → Option String
  | [] => some (pre ++ "/" ++ t.dirName)
  | i :: is => (t.subdirs[i]?).bind fun c => pathAt (pre ++ "/" ++ t.dirName) c is

/-- Follows the claim's words: the index list addresses a repository root
that is reachable within the depth budget and is not a descendant of
another repository root (every strict ancestor, the searched root
included, fails the repo probe). -/
def specRepoAddress (d : Nat) (t : DirTree) (idxs : List Nat) : Prop :=
  (∃ u, descend t idxs = some u ∧ u.isRepo = true) ∧
  idxs.length ≤ d ∧
  (∀ js ks, idxs = js ++ ks → ks ≠ [] → ∀ v, descend t js = some v → v.isRepo = false)

/-- The concrete scenario tree from the claim: `/work` contains `/work/a`
(a repo) and `/work/b` (not a repo) which contains the repo `/work/b/c`. -/
def workTree : DirTree :=
  .node ("work") false
    [.node ("a") true [], .node ("b") false [.node ("c") true []]]

/-- One `os.read` performed on a pty master in the run_git read loop:
which channel was ready and the bytes delivered.  An empty chunk models a
zero-length read, i.e. the child closed that channel. -/
inductive ReadEv where
  | rout (data : Bytes)
  | rerr (data : Bytes)

/-- The environment of one `run_git` call: the argv, whether `Popen`
succeeds, the sequence of reads the OS delivers, the first loop iteration
at which `die.is_set()` is observed true (if ever), the child's exit
status, and whether the child is still alive when the `finally` block
polls it. -/
structure RunInput where
  command : List String
  spawnOk : Bool
  schedule : List ReadEv
  dieFrom : Option Nat
  returncode : Int
  aliveAtEnd : Bool

/-- Whether the process-wide cancellation flag is observed set at loop
iteration `i`: the flag is monotone, set from iteration `k` onward. -/
def dieSet : Option Nat → Nat → Bool
  | none, _ => false
  | some k, i => decide (k ≤ i)

/-- How the `while readable:` loop of run_git (lines 143-154) ends:
both channels closed (`done`), the cancellation flag observed
(`cancelled`, run_git returns None from inside the try), or the schedule
ran dry with a channel still open (the child never closes it and the
real loop would block in `select`). -/
inductive LoopExit where
  | done (outBuf errBuf : Bytes)
  | cancelled (outBuf errBuf : Bytes)
  | blocked (outBuf errBuf : Bytes)

/-- Model of the readiness-driven read loop of run_git: while a channel
is open, first check the cancellation flag, then service one ready
channel; a zero-length read removes the channel from the wait set. -/
def readLoop (dieFrom : Option Nat) :
    List ReadEv → Nat → Bool → Bool → Bytes → Bytes → LoopExit
  | evs, i, oOpen, eOpen, ob, eb =>
    if oOpen || eOpen then
      if dieSet dieFrom i then .cancelled ob eb
      else
        match evs with
        | [] => .blocked ob eb
        | .rout d :: rest =>
          if oOpen then
            if d.isEmpty then readLoop dieFrom rest (i + 1) false eOpen ob eb
            else readLoop dieFrom rest (i + 1) oOpen eOpen (ob ++ d) eb
          else readLoop dieFrom rest (i + 1) oOpen eOpen ob eb
        | .rerr d :: rest =>
          if eOpen then
            if d.isEmpty then readLoop dieFrom rest (i + 1) oOpen false ob eb
            else readLoop dieFrom rest (i + 1) oOpen eOpen ob (eb ++ d)
          else readLoop dieFrom rest (i + 1) oOpen eOpen ob eb
    else .done ob eb

/-- What run_git produces: the `Popen` exception propagating, the loop
blocking forever, a Python return value (None or the pair of
splitlines'd buffers), or a raised `GitError` carrying the stderr
bytes (whose `.decode()` is `decodeBytes`). -/
inductive RunResult where
  | spawnFail
  | blocked
  | ret (v : Option (List Bytes × List Bytes))
  | gitError (stderrBytes : Bytes)

/-- Observable outcome of one run_git call.  File descriptors are
numbered 0-2 for the three pty masters and 3-5 for the three slaves;
`openFds` lists the ones still open when the call is over. -/
structure RunOutcome where
  result : RunResult
  openFds : List Nat
  sigintSent : Bool
  childSpawned : Bool
  childKilled : Bool
  childAliveAfter : Bool

/-- Model of `run_git(command, ok_returncodes, ignore_returncodes)`
(git-r.py lines 126-169).  Three ptys are opened (six descriptors); if
`Popen` raises, nothing has been closed yet (the slave-closing loop and
the try/finally both come after it).  After a successful spawn the
slaves are closed, the read loop runs, and the `finally` block kills a
still-live child and closes the three masters on the way out; the exit
status is then classified against the two code tuples. -/
def runGit (okCodes ignoreCodes : List Int) (inp : RunInput) : RunOutcome :=
  if inp.spawnOk then
    match readLoop inp.dieFrom inp.schedule 0 true true [] [] with
    | .cancelled _ _ =>
      ⟨.ret none, [], true, true, inp.aliveAtEnd, false⟩
    | .blocked _ _ =>
      ⟨.blocked, [0, 1, 2], false, true, false, inp.aliveAtEnd⟩
    | .done ob eb =>
      if inp.returncode ∈ okCodes then
        ⟨.ret (some (splitlines ob, splitlines eb)), [], false, true,
          inp.aliveAtEnd, false⟩
      else if inp.returncode ∈ ignoreCodes then
        ⟨.ret none, [], false, true, inp.aliveAtEnd, false⟩
      else
        ⟨.gitError eb, [], false, true, inp.aliveAtEnd, false⟩
  else
    ⟨.spawnFail, [0, 1, 2, 3, 4, 5], false, false, false, false⟩

/-- The bytes the child wrote to its stdout channel before closing it:
concatenation of the non-empty stdout chunks up to the zero-length
read. -/
def outWritten : List ReadEv → Bytes
  | [] => []
  | .rout d :: rest => if d.isEmpty then [] else d ++ outWritten rest
  | .rerr _ :: rest => outWritten rest

/-- The bytes the child wrote to its stderr channel before closing it. -/
def errWritten : List ReadEv → Bytes
  | [] => []
  | .rerr d :: rest => if d.isEmpty then [] else d ++ errWritten rest
  | .rout _ :: rest => errWritten rest

/-- Model of `git_grep(repo, args)` from git-rgrep.py lines 51-62: exit 0
returns the stdout records, exit 1 (no match) returns None, anything else
raises a `GitError` whose message names the repo and holds the decoded
stderr. -/
def gitGrep (repo : String) (rc : Int) (stdoutBuf stderrBuf : Bytes) :
    Except String (Option (List Bytes)) :=
  if rc = 0 then .ok (some (splitlines stdoutBuf))
  else if rc = 1 then .ok none
  else .error ("git grep error in repo " ++ repo ++ "\n" ++ decodeBytes stderrBuf)

/-- The ANSI escape prelude for green, `COLOR_GREEN` in the source. -/
def colorGreen : String := "\x1b[32m"

/-- The ANSI reset sequence, `COLOR_RESET` in the source. -/
def colorReset : String := "\x1b[0m"

/-- The three values of the --prefix option. -/
inductive TagMode where
  | repo
  | line
  | no

/-- Model of the repo_prefix bytes built in main (git-r.py lines 261-264):
the repo's display path, optionally colorized, followed by a slash. -/
def repoTagBytes (useColor : Bool) (repoPath : String) : Bytes :=
  if useColor then encodeStr (colorGreen ++ repoPath ++ colorReset ++ "/")
  else encodeStr (repoPath ++ "/")

/-- Model of the per-target output writing in main (git-r.py lines
266-275): in repo mode one header line goes to stdout first; in line
mode every record of both streams is preceded by the repo_prefix bytes;
the records themselves are written byte-for-byte.  Returns the bytes
written to stdout and to stderr for this target. -/
def emitTarget (mode : TagMode) (useColor : Bool) (repoPath : String)
    (so se : List Bytes) : Bytes × Bytes :=
  let tag := repoTagBytes useColor repoPath
  let withTag : Bytes → Bytes := fun l =>
    match mode with
    | .line => tag ++ l
    | _ => l
  let header : Bytes :=
    match mode with
    | .repo => tag ++ [10]
    | _ => []
  (header ++ (so.map withTag).flatten, (se.map withTag).flatten)

/-- One completed future as the dispatcher loop sees it: a successful
pair of captured record lists, None (skipped silently), or a raised
`GitError` carrying the stderr bytes. -/
inductive CResult where
  | okRes (so se : List Bytes)
  | noRes
  | fatal (msg : Bytes)

/-- Whether a completion is the fatal (GitError) kind. -/
def CResult.isFatal : CResult → Bool
  | .fatal _ => true
  | _ => false

/-- The diagnostic main prints for a fatal completion (git-r.py line
249). -/
def mkDiag (repo : String) (msg : Bytes) : String :=
  "ERROR: in repo " ++ repo ++ ":\n" ++ decodeBytes msg

/-- Observable outcome of the dispatcher loop: the returned exit code,
all bytes written to stdout and stderr, the diagnostics printed, and
whether the cancellation flag was set and the pending futures
cancelled. -/
structure DispatchOut where
  exitCode : Nat
  outBytes : Bytes
  errBytes : Bytes
  diags : List String
  dieFlag : Bool
  futuresCancelled : Bool

/-- Model of the `for future in as_completed(...)` loop of main (git-r.py
lines 244-275), consuming completions in completion order.  A fatal
completion immediately prints its diagnostic, sets the die flag, cancels
every pending future and returns exit code 1; a None completion is
skipped; a successful one is written out through `emitTarget`. -/
def dispatchLoop (mode : TagMode) (useColor : Bool) :
    List (String × CResult) → Bytes → Bytes → DispatchOut
  | [], ob, eb => ⟨0, ob, eb, [], false, false⟩
  | (repo, .fatal msg) :: _, ob, eb => ⟨1, ob, eb, [mkDiag repo msg], true, true⟩
  | (_, .noRes) :: rest, ob, eb => dispatchLoop mode useColor rest ob eb
  | (repo, .okRes so se) :: rest, ob, eb =>
    let w := emitTarget mode useColor repo so se
    dispatchLoop mode useColor rest (ob ++ w.fst) (eb ++ w.snd)

/-- The whole dispatcher run over a completion sequence. -/
def dispatch (mode : TagMode) (useColor : Bool)
    (cs : List (String × CResult)) : DispatchOut :=
  dispatchLoop mode useColor cs [] []

/-- Model of the use_color decision (git-r.py lines 228-232, identical in
git-rgrep.py lines 93-98): colour is disabled exactly when the
passthrough arguments contain `--color=never`, or when stdout is not a
tty AND the arguments contain `--color=always`. -/
def useColorOf (stdoutIsATty : Bool) (gitArgs : List String) : Bool :=
  if gitArgs.contains ("--color=never") ||
      (!stdoutIsATty && gitArgs.contains ("--color=always")) then false
  else true

/-- Where a stream's file descriptor points after the broken-pipe
handler may have `dup2`'d it onto `/dev/null`. -/
inductive StreamDest where
  | realOut
  | devnull

/-- A write to a stream destination: only bytes sent to the real
consumer are observable, a devnull destination discards them. -/
def writeToDest : StreamDest → Bytes → Bytes
  | .realOut, w => w
  | .devnull, _ => []

/-- Outcome of the guarded write loop: bytes that reached the consumer,
where the stream fd points afterwards, the `SystemExit` code raised (if
any), and whether any exception escaped unhandled. -/
structure WriteOut where
  written : Bytes
  dest : StreamDest
  exitRaised : Option Nat
  unhandled : Bool

/-- Model of the try/except BrokenPipeError write loop (git-r.py lines
270-280, git-rgrep.py lines 129-137): chunks are written in order; if
the consumer has closed the pipe, the write at index `breakAt` raises
BrokenPipeError, which the handler converts into a dup2 onto /dev/null
followed by `SystemExit(1)`. -/
def writeChunks (breakAt : Option Nat) : List Bytes → Nat → Bytes → WriteOut
  | [], _, acc => ⟨acc, .realOut, none, false⟩
  | c :: rest, i, acc =>
    match breakAt with
    | some k =>
      if i = k then ⟨acc, .devnull, some 1, false⟩
      else writeChunks breakAt rest (i + 1) (acc ++ c)
    | none => writeChunks breakAt rest (i + 1) (acc ++ c)

/-- Model of the repo filter in main (git-r.py lines 204-214): a repo is
skipped when include patterns exist and none matches, or when some
exclude pattern matches; `re.search` is abstracted as a boolean
predicate on the repo's path string. -/
def keepRepo (includePs excludePs : List (String → Bool))
    (repoStr : String) : Bool :=
  if !includePs.isEmpty && !(includePs.any fun p => p repoStr) then false
  else if excludePs.any fun p => p repoStr then false
  else true

/-- The two command kinds the argument parser resolves to. -/
inductive CmdKind where
  | grep
  | passthrough

/-- Model of the prefix-mode defaulting done inside grep_command
(git-r.py lines 94-95): the grep subcommand replaces an absent --prefix
by "line"; the passthrough command leaves it untouched. -/
def applyCommandTagDefault : CmdKind → Option String → Option String
  | .grep, none => some ("line")
  | .grep, some v => some v
  | .passthrough, v => v

/-- Model of `prefix = args.prefix or "repo"` in main (git-r.py line
266), applied after the command-specific defaulting. -/
def effectiveTagOf (c : CmdKind) (v : Option String) : String :=
  (applyCommandTagDefault c v).getD ("repo")

theorem join_splitlinesAux (bs acc : Bytes) :
    (splitlinesAux bs acc).flatten = acc.reverse ++ bs := by
  induction bs, acc using splitlinesAux.induct with
  | case1 acc h =>
    have hacc : acc = [] := List.isEmpty_iff.mp h
    subst hacc
    rw [splitlinesAux.eq_def]
    simp
  | case2 acc h =>
    rw [splitlinesAux.eq_def]
    simp [h]
  | case3 rest acc ih =>
    rw [splitlinesAux.eq_def]
    simp [ih]
  | case4 acc h =>
    rw [splitlinesAux.eq_def]
    simp
  | case5 acc rest2 h ih =>
    rw [splitlinesAux.eq_def]
    simp [ih]
  | case6 acc r rest2 hr h ih =>
    rw [splitlinesAux.eq_def]
    simp [hr, ih]
  | case7 b rest acc hb hb13 ih =>
    rw [splitlinesAux.eq_def]
    simp [hb, hb13, ih]

theorem join_splitlines (bs : Bytes) : (splitlines bs).flatten = bs := by
  simpa using join_splitlinesAux bs []

theorem splitlinesAux_append_nl (a : Bytes) (h : noNL a) :
    ∀ (b acc : Bytes),
      splitlinesAux (a ++ 10 :: b) acc =
        ((acc.reverse ++ a) ++ [10]) :: splitlinesAux b [] := by
  induction a with
  | nil =>
    intro b acc
    rw [List.nil_append, splitlinesAux.eq_def]
    simp
  | cons x a' ih =>
    intro b acc
    have hx := h x (by simp)
    have h' : noNL a' := fun y hy => h y (by simp [hy])
    rw [List.cons_append, splitlinesAux.eq_def]
    simp only [hx.1, hx.2, if_false]
    rw [ih h' b (x :: acc)]
    simp

theorem splitlines_append_nl (a b : Bytes) (h : noNL a) :
    splitlines (a ++ 10 :: b) = (a ++ [10]) :: splitlines b := by
  have := splitlinesAux_append_nl a h b []
  simpa [splitlines] using this

theorem splitlines_nil : splitlines [] = [] := rfl

theorem findGitReposProbed_fst (depth : Nat) (t : DirTree) (pre : String) :
    (findGitReposProbed depth t pre).fst = findGitRepos depth t pre := by
  induction depth generalizing t pre with
  | zero =>
    by_cases h : t.isRepo <;> simp [findGitRepos, findGitReposProbed, h]
  | succ d ih =>
    by_cases h : t.isRepo
    · simp [findGitRepos, findGitReposProbed, h]
    · simp only [findGitRepos, findGitReposProbed, h, Bool.false_eq_true, if_false,
        List.map_map, List.flatMap]
      congr 1
      exact List.map_congr_left fun c _ => ih c _

theorem specRepoAddress_of_isRepo (d : Nat) (t : DirTree) (idxs : List Nat)
    (h : t.isRepo = true) : specRepoAddress d t idxs ↔ idxs = [] := by
  constructor
  · rintro ⟨-, -, hanc⟩
    by_contra hne
    have hf : t.isRepo = false := hanc [] idxs rfl hne t (by rw [descend])
    rw [hf] at h
    exact Bool.false_ne_true h
  · rintro rfl
    refine ⟨⟨t, rfl, h⟩, by simp, ?_⟩
    intro js ks hjk hk
    exact absurd (List.append_eq_nil.mp hjk.symm).2 hk

theorem specRepoAddress_zero (t : DirTree) (idxs : List Nat)
    (h : t.isRepo = false) : ¬ specRepoAddress 0 t idxs := by
  rintro ⟨⟨u, hu, hru⟩, hlen, -⟩
  have hidx : idxs = [] := List.length_eq_zero.mp (Nat.le_zero.mp hlen)
  subst hidx
  rw [descend] at hu
  have : u = t := (Option.some_inj.mp hu).symm
  subst this
  simp [h] at hru

theorem specRepoAddress_cons (d : Nat) (t : DirTree) (i : Nat) (is : List Nat)
    (h : t.isRepo = false) :
    specRepoAddress (d + 1) t (i :: is) ↔
      ∃ c, t.subdirs[i]? = some c ∧ specRepoAddress d c is := by
  constructor
  · rintro ⟨⟨u, hu, hru⟩, hlen, hanc⟩
    rw [descend] at hu
    obtain ⟨c, hc, hdc⟩ := Option.bind_eq_some.mp hu
    refine ⟨c, hc, ⟨u, hdc, hru⟩, by simpa using hlen, ?_⟩
    intro js ks hjk hk v hv
    have hv' : descend t (i :: js) = some v := by
      rw [descend, hc, Option.some_bind]
      exact hv
    exact hanc (i :: js) ks (by simp [hjk]) hk v hv'
  · rintro ⟨c, hc, ⟨u, hu, hru⟩, hlen, hanc⟩
    refine ⟨⟨u, ?_, hru⟩, by simpa using hlen, ?_⟩
    · rw [descend, hc, Option.some_bind]
      exact hu
    · intro js ks hjk hk v hv
      match js with
      | [] =>
        rw [descend] at hv
        have : v = t := (Option.some_inj.mp hv).symm
        subst this
        exact h
      | j :: js' =>
        have hj : j = i ∧ js' ++ ks = is := by
          have hjk' := hjk
          simp only [List.cons_append, List.cons.injEq] at hjk'
          exact ⟨hjk'.1.symm, hjk'.2.symm⟩
        obtain ⟨rfl, hjs⟩ := hj
        rw [descend, hc, Option.some_bind] at hv
        exact hanc js' ks hjs.symm hk v hv

theorem pathAt_cons (pre : String) (t : DirTree) (i : Nat) (is : List Nat)
    (c : DirTree) (hc : t.subdirs[i]? = some c) :
    pathAt pre t (i :: is) = pathAt (pre ++ "/" ++ t.dirName) c is := by
  rw [pathAt, hc, Option.some_bind]

theorem mem_findGitRepos (d : Nat) (t : DirTree) (pre s : String) :
    s ∈ findGitRepos d t pre ↔
      ∃ idxs, specRepoAddress d t idxs ∧ pathAt pre t idxs = some s := by
  induction d generalizing t pre s with
  | zero =>
    by_cases h : t.isRepo
    · rw [findGitRepos]
      simp only [h, if_true]
      constructor
      · intro hs
        refine ⟨[], (specRepoAddress_of_isRepo 0 t [] h).mpr rfl, ?_⟩
        simp only [List.mem_singleton] at hs
        simp [pathAt, hs]
      · rintro ⟨idxs, hspec, hpath⟩
        have : idxs = [] := (specRepoAddress_of_isRepo 0 t idxs h).mp hspec
        subst this
        rw [pathAt] at hpath
        simp [Option.some_inj.mp hpath]
    · rw [findGitRepos]
      simp only [h, Bool.false_eq_true, if_false]
      constructor
      · intro hs
        exact absurd hs (List.not_mem_nil s)
      · rintro ⟨idxs, hspec, -⟩
        exact absurd hspec (specRepoAddress_zero t idxs (by simpa using h))
  | succ d ih =>
    by_cases h : t.isRepo
    · rw [findGitRepos]
      simp only [h, if_true]
      constructor
      · intro hs
        refine ⟨[], (specRepoAddress_of_isRepo (d + 1) t [] h).mpr rfl, ?_⟩
        simp only [List.mem_singleton] at hs
        simp [pathAt, hs]
      · rintro ⟨idxs, hspec, hpath⟩
        have : idxs = [] := (specRepoAddress_of_isRepo (d + 1) t idxs h).mp hspec
        subst this
        rw [pathAt] at hpath
        simp [Option.some_inj.mp hpath]
    · have h' : t.isRepo = false := by simpa using h
      rw [findGitRepos]
      simp only [h, Bool.false_eq_true, if_false]
      rw [List.mem_flatMap]
      constructor
      · rintro ⟨c, hcmem, hs⟩
        obtain ⟨i, hc⟩ := List.getElem?_of_mem hcmem
        obtain ⟨is, hspec, hpath⟩ := (ih c (pre ++ "/" ++ t.dirName) s).mp hs
        refine ⟨i :: is, ?_, ?_⟩
        · exact (specRepoAddress_cons d t i is h').mpr ⟨c, hc, hspec⟩
        · rw [pathAt_cons pre t i is c hc]
          exact hpath
      · rintro ⟨idxs, hspec, hpath⟩
        match idxs with
        | [] =>
          obtain ⟨⟨u, hu, hru⟩, -, -⟩ := hspec
          rw [descend] at hu
          have : u = t := (Option.some_inj.mp hu).symm
          subst this
          simp [h'] at hru
        | i :: is =>
          obtain ⟨c, hc, hspec'⟩ := (specRepoAddress_cons d t i is h').mp hspec
          refine ⟨c, List.getElem?_mem hc, ?_⟩
          refine (ih c (pre ++ "/" ++ t.dirName) s).mpr ⟨is, hspec', ?_⟩
          rw [pathAt_cons pre t i is c hc] at hpath
          exact hpath

theorem readLoop_none_done (evs : List ReadEv) :
    ∀ (i : Nat) (oOpen eOpen : Bool) (ob eb ob' eb' : Bytes),
      readLoop none evs i oOpen eOpen ob eb = .done ob' eb' →
      ob' = ob ++ (if oOpen then outWritten evs else []) ∧
      eb' = eb ++ (if eOpen then errWritten evs else []) := by
  induction evs with
  | nil =>
    intro i oOpen eOpen ob eb ob' eb' h
    rw [readLoop.eq_def] at h
    by_cases ho : (oOpen || eOpen) = true
    · simp [ho, dieSet] at h
    · have hf := Bool.or_eq_false_iff.mp (Bool.not_eq_true _ ▸ ho)
      simp only [ho, if_false] at h
      cases h
      simp [hf.1, hf.2]
  | cons ev rest ih =>
    intro i oOpen eOpen ob eb ob' eb' h
    rw [readLoop.eq_def] at h
    by_cases ho : (oOpen || eOpen) = true
    · simp only [ho, if_true, dieSet, Bool.false_eq_true, if_false] at h
      cases ev with
      | rout d =>
        by_cases hoo : oOpen = true
        · by_cases hd : d.isEmpty = true
          · simp only [hoo, hd, if_true] at h
            obtain ⟨h1, h2⟩ := ih _ _ _ _ _ _ _ h
            refine ⟨?_, ?_⟩
            · simpa [hoo, outWritten, hd] using h1
            · simpa [errWritten] using h2
          · simp only [hoo, hd, if_true, Bool.false_eq_true, if_false] at h
            obtain ⟨h1, h2⟩ := ih _ _ _ _ _ _ _ h
            refine ⟨?_, ?_⟩
            · simp only [hoo, if_true] at h1 ⊢
              simpa [outWritten, hd] using h1
            · simpa [errWritten] using h2
        · simp only [hoo, Bool.false_eq_true, if_false] at h
          obtain ⟨h1, h2⟩ := ih _ _ _ _ _ _ _ h
          refine ⟨?_, ?_⟩
          · simpa [hoo] using h1
          · simpa [errWritten] using h2
      | rerr d =>
        by_cases heo : eOpen = true
        · by_cases hd : d.isEmpty = true
          · simp only [heo, hd, if_true] at h
            obtain ⟨h1, h2⟩ := ih _ _ _ _ _ _ _ h
            refine ⟨?_, ?_⟩
            · simpa [outWritten] using h1
            · simpa [heo, errWritten, hd] using h2
          · simp only [heo, hd, if_true, Bool.false_eq_true, if_false] at h
            obtain ⟨h1, h2⟩ := ih _ _ _ _ _ _ _ h
            refine ⟨?_, ?_⟩
            · simpa [outWritten] using h1
            · simp only [heo, if_true] at h2 ⊢
              simpa [errWritten, hd] using h2
        · simp only [heo, Bool.false_eq_true, if_false] at h
          obtain ⟨h1, h2⟩ := ih _ _ _ _ _ _ _ h
          refine ⟨?_, ?_⟩
          · simpa [outWritten] using h1
          · simpa [heo] using h2
    · have hf := Bool.or_eq_false_iff.mp (Bool.not_eq_true _ ▸ ho)
      simp only [ho, if_false] at h
      cases h
      simp [hf.1, hf.2]

theorem keepRepo_eq (includePs excludePs : List (String → Bool)) (r : String) :
    keepRepo includePs excludePs r =
      ((includePs.isEmpty || includePs.any fun p => p r) &&
        !(excludePs.any fun p => p r)) := by
  rw [keepRepo]
  cases hi : includePs.isEmpty <;>
    cases ha : (includePs.any fun p => p r) <;>
      cases he : (excludePs.any fun p => p r) <;> simp [hi, ha, he]

/-- C9: a discovered repository is kept for dispatch iff the include
list is empty or at least one include pattern matches the repo's path
string, and no exclude pattern matches it; an exclude match forces the
repo out even when an include pattern matches. -/
theorem c9_repo_filter (includePs excludePs : List (String → Bool)) (r : String) :
    (keepRepo includePs excludePs r = true ↔
      ((includePs = [] ∨ ∃ p ∈ includePs, p r = true) ∧
        ∀ p ∈ excludePs, p r = false)) ∧
    ((∃ p ∈ excludePs, p r = true) → keepRepo includePs excludePs r = false) := by
  constructor
  · rw [keepRepo_eq]
    simp [List.isEmpty_iff, List.any_eq_true, List.all_eq_true]
  · intro hex
    rw [keepRepo_eq]
    simp only [Bool.and_eq_false_iff]
    right
    simpa [List.any_eq_true] using hex

theorem c9_repo_filter_witness :
    keepRepo [] [fun s => s == ("x")] ("x") = false :=
  (c9_repo_filter [] [fun s => s == ("x")] ("x")).2
    ⟨fun s => s == ("x"), by simp, by simp⟩

/-- C10: when the --prefix option is not given, the prefix mode defaults
per command: the grep subcommand resolves it to line mode inside
grep_command, while the passthrough command leaves it unset so main
falls back to repo mode. -/
theorem c10_tag_mode_defaults :
    effectiveTagOf CmdKind.grep none = "line" ∧
    effectiveTagOf CmdKind.passthrough none = "repo" :=
  ⟨rfl, rfl⟩

/-- C6 (divergence of the code from the claim): with no colour flags and
a non-tty stdout, use_color still ends up True (the claim says colouring
defaults to on only for interactive terminals), and with an explicit
--color=always on a non-tty stdout use_color ends up False (the claim
says an explicit request forces it on).  The last two conjuncts record
the two behaviours that do match the claim. -/
theorem c6_use_color_divergence :
    useColorOf false [] = true ∧
    useColorOf false [("--color=always")] = false ∧
    useColorOf true [] = true ∧
    useColorOf false [("--color=never")] = false := by
  refine ⟨rfl, ?_, rfl, ?_⟩ <;> decide

theorem writeChunks_break (chunks : List Bytes) :
    ∀ (j i : Nat) (acc : Bytes), j < chunks.length →
      writeChunks (some (i + j)) chunks i acc =
        ⟨acc ++ (chunks.take j).flatten, .devnull, some 1, false⟩ := by
  induction chunks with
  | nil =>
    intro j i acc hj
    exact absurd hj (by simp)
  | cons c rest ih =>
    intro j i acc hj
    match j with
    | 0 =>
      rw [writeChunks]
      simp
    | j' + 1 =>
      rw [writeChunks]
      have hne : i ≠ i + (j' + 1) := by omega
      rw [if_neg hne]
      have : i + (j' + 1) = (i + 1) + j' := by omega
      rw [this, ih j' (i + 1) (acc ++ c) (by simpa using hj)]
      simp

/-- C7: when a write hits a closed downstream pipe (BrokenPipeError at
write index k), the handler redirects the stream's fd to /dev/null —
after which every write is discarded — and raises SystemExit(1), the
dedicated broken-pipe termination path, instead of letting the fault
escape unhandled; only the chunks before k reached the consumer. -/
theorem c7_broken_pipe (chunks : List Bytes) (k : Nat) (hk : k < chunks.length) :
    (writeChunks (some k) chunks 0 []).dest = StreamDest.devnull ∧
    (writeChunks (some k) chunks 0 []).exitRaised = some 1 ∧
    (writeChunks (some k) chunks 0 []).unhandled = false ∧
    (writeChunks (some k) chunks 0 []).written = (chunks.take k).flatten ∧
    (∀ w, writeToDest StreamDest.devnull w = []) := by
  have h := writeChunks_break chunks k 0 [] (by simpa using hk)
  rw [Nat.zero_add] at h
  rw [h]
  exact ⟨rfl, rfl, rfl, by simp, fun w => rfl⟩

theorem noNL_append (a b : Bytes) (ha : noNL a) (hb : noNL b) : noNL (a ++ b) := by
  intro x hx
  rcases List.mem_append.mp hx with h | h
  · exact ha x h
  · exact hb x h

theorem splitlines_one (a : Bytes) (ha : noNL a) :
    splitlines (a ++ [10]) = [a ++ [10]] := by
  simpa [splitlines_nil] using splitlines_append_nl a [] ha

theorem splitlines_cons_line (a rest : Bytes) (ha : noNL a) :
    splitlines ((a ++ [10]) ++ rest) = (a ++ [10]) :: splitlines rest := by
  simpa [List.append_assoc] using splitlines_append_nl a rest ha

/-- C5: for a target foo/bar whose command produced exactly two stdout
records, prefix mode line emits exactly two lines, each beginning with
the repo_prefix bytes foo/bar/; mode repo emits one header line foo/bar/
followed by the two records unprefixed; mode no emits the two records
verbatim. -/
theorem c5_tag_modes (b1 b2 : Bytes) (h1 : noNL b1) (h2 : noNL b2) :
    repoTagBytes false ("foo/bar") = encodeStr ("foo/bar/") ∧
    splitlines (emitTarget TagMode.line false ("foo/bar")
        [b1 ++ [10], b2 ++ [10]] []).fst =
      [repoTagBytes false ("foo/bar") ++ (b1 ++ [10]),
        repoTagBytes false ("foo/bar") ++ (b2 ++ [10])] ∧
    splitlines (emitTarget TagMode.repo false ("foo/bar")
        [b1 ++ [10], b2 ++ [10]] []).fst =
      [repoTagBytes false ("foo/bar") ++ [10], b1 ++ [10], b2 ++ [10]] ∧
    (emitTarget TagMode.no false ("foo/bar") [b1 ++ [10], b2 ++ [10]] []).fst =
      (b1 ++ [10]) ++ (b2 ++ [10]) ∧
    splitlines (emitTarget TagMode.no false ("foo/bar")
        [b1 ++ [10], b2 ++ [10]] []).fst = [b1 ++ [10], b2 ++ [10]] := by
  have htag : noNL (repoTagBytes false ("foo/bar")) := by decide
  refine ⟨by decide, ?_, ?_, ?_, ?_⟩
  · have e : (emitTarget TagMode.line false ("foo/bar")
          [b1 ++ [10], b2 ++ [10]] []).fst =
        ((repoTagBytes false ("foo/bar") ++ b1) ++ [10]) ++
          (((repoTagBytes false ("foo/bar") ++ b2) ++ [10]) ++ []) := by
      simp [emitTarget]
    rw [e, splitlines_cons_line _ _ (noNL_append _ _ htag h1), List.append_nil,
      splitlines_one _ (noNL_append _ _ htag h2)]
    simp [List.append_assoc]
  · have e : (emitTarget TagMode.repo false ("foo/bar")
          [b1 ++ [10], b2 ++ [10]] []).fst =
        (repoTagBytes false ("foo/bar") ++ [10]) ++
          ((b1 ++ [10]) ++ ((b2 ++ [10]) ++ [])) := by
      simp [emitTarget]
    rw [e, splitlines_cons_line _ _ htag, splitlines_cons_line _ _ h1,
      List.append_nil, splitlines_one _ h2]
  · simp [emitTarget]
  · have e : (emitTarget TagMode.no false ("foo/bar")
          [b1 ++ [10], b2 ++ [10]] []).fst =
        (b1 ++ [10]) ++ ((b2 ++ [10]) ++ []) := by
      simp [emitTarget]
    rw [e, splitlines_cons_line _ _ h1, List.append_nil, splitlines_one _ h2]

theorem c5_tag_modes_witness :
    splitlines (emitTarget TagMode.line false ("foo/bar")
        [[104] ++ [10], [105] ++ [10]] []).fst =
      [repoTagBytes false ("foo/bar") ++ ([104] ++ [10]),
        repoTagBytes false ("foo/bar") ++ ([105] ++ [10])] :=
  (c5_tag_modes [104] [105] (by decide) (by decide)).2.1

theorem dispatchLoop_fatal (mode : TagMode) (uc : Bool)
    (pre : List (String × CResult)) :
    ∀ (post : List (String × CResult)) (repo : String) (msg ob eb : Bytes),
      (∀ c ∈ pre, c.2.isFatal = false) →
      dispatchLoop mode uc (pre ++ (repo, CResult.fatal msg) :: post) ob eb =
        ⟨1, (dispatchLoop mode uc pre ob eb).outBytes,
          (dispatchLoop mode uc pre ob eb).errBytes, [mkDiag repo msg],
          true, true⟩ := by
  induction pre with
  | nil =>
    intro post repo msg ob eb _
    simp [dispatchLoop]
  | cons c pre' ih =>
    intro post repo msg ob eb hpre
    have hc := hpre c (by simp)
    have hpre' : ∀ x ∈ pre', x.2.isFatal = false :=
      fun x hx => hpre x (by simp [hx])
    obtain ⟨r, cr⟩ := c
    cases cr with
    | okRes so se =>
      simp only [List.cons_append, dispatchLoop]
      exact ih post repo msg _ _ hpre'
    | noRes =>
      simp only [List.cons_append, dispatchLoop]
      exact ih post repo msg ob eb hpre'
    | fatal m =>
      simp [CResult.isFatal] at hc

/-- C1: when a run over at least two targets has a completion that
raised a fatal GitError, the dispatcher at that completion prints one
diagnostic naming the target and its captured stderr, sets the die flag,
cancels all pending futures and returns exit code 1, with the bytes
written to stdout/stderr being exactly those of the completions
consumed before the fatal one — nothing after it produces output.
Moreover any run_git invocation that observes the die flag at its first
loop check sends SIGINT to its child and returns None. -/
theorem c1_fatal_error_aborts (mode : TagMode) (uc : Bool)
    (pre post : List (String × CResult)) (repo : String) (msg : Bytes)
    (_hN : 2 ≤ (pre ++ (repo, CResult.fatal msg) :: post).length)
    (hpre : ∀ c ∈ pre, c.2.isFatal = false) :
    (dispatch mode uc (pre ++ (repo, CResult.fatal msg) :: post) =
      ⟨1, (dispatch mode uc pre).outBytes, (dispatch mode uc pre).errBytes,
        [mkDiag repo msg], true, true⟩) ∧
    (∀ (okCodes ignoreCodes : List Int) (inp : RunInput),
      inp.spawnOk = true → inp.dieFrom = some 0 →
      (runGit okCodes ignoreCodes inp).result = RunResult.ret none ∧
      (runGit okCodes ignoreCodes inp).sigintSent = true) := by
  refine ⟨?_, ?_⟩
  · exact dispatchLoop_fatal mode uc pre post repo msg [] [] hpre
  · intro okCodes ignoreCodes inp hs hd
    have hcan : readLoop inp.dieFrom inp.schedule 0 true true [] [] =
        .cancelled [] [] := by
      rw [hd, readLoop.eq_def]
      simp [dieSet]
    constructor
    · rw [runGit]
      simp [hs, hcan]
    · rw [runGit]
      simp [hs, hcan]

theorem c1_fatal_error_aborts_witness :
    dispatch TagMode.repo false
        [(("a"), CResult.noRes), (("b"), CResult.fatal [120])] =
      ⟨1, (dispatch TagMode.repo false [(("a"), CResult.noRes)]).outBytes,
        (dispatch TagMode.repo false [(("a"), CResult.noRes)]).errBytes,
        [mkDiag ("b") [120]], true, true⟩ :=
  (c1_fatal_error_aborts TagMode.repo false [(("a"), CResult.noRes)] []
    ("b") [120] (by decide) (by decide)).1

/-- C3: a starting directory that is itself a repo root is returned
alone without probing any subdirectory; otherwise a depth bound below 1
yields the empty result; otherwise the returned paths are exactly the
repo roots reachable within the depth budget that are not descendants
of another discovered root; and the claim's concrete scenario holds. -/
theorem c3_locate (d : Nat) (t : DirTree) (pre s : String) :
    (t.isRepo = true →
      findGitRepos d t pre = [pre ++ "/" ++ t.dirName] ∧
      findGitReposProbed d t pre =
        ([pre ++ "/" ++ t.dirName], [pre ++ "/" ++ t.dirName])) ∧
    (t.isRepo = false → d < 1 → findGitRepos d t pre = []) ∧
    (s ∈ findGitRepos d t pre ↔
      ∃ idxs, specRepoAddress d t idxs ∧ pathAt pre t idxs = some s) ∧
    findGitRepos 2 workTree ("") = [("/work/a"), ("/work/b/c")] := by
  refine ⟨?_, ?_, mem_findGitRepos d t pre s, ?_⟩
  · intro h
    constructor
    · rw [findGitRepos.eq_def]
      simp [h]
    · rw [findGitReposProbed.eq_def]
      simp [h]
  · intro h hd
    have hd0 : d = 0 := by omega
    subst hd0
    rw [findGitRepos.eq_def]
    simp [h]
  · decide

theorem c3_locate_witness :
    findGitRepos 1 (DirTree.node ("a") true []) ("") =
      [("") ++ "/" ++ (DirTree.node ("a") true []).dirName] ∧
    findGitReposProbed 1 (DirTree.node ("a") true []) ("") =
      ([("") ++ "/" ++ (DirTree.node ("a") true []).dirName],
        [("") ++ "/" ++ (DirTree.node ("a") true []).dirName]) :=
  (c3_locate 1 (DirTree.node ("a") true []) ("") ("")).1 rfl

/-- C4 (code bug evidence): on the spawn-failure path run_git leaves all
six pty descriptors open and no child exists to kill — the slave-closing
loop and the try/finally that closes the masters both come only after
Popen returns, so the claim's "closed on every exit path including when
the child fails to start" fails there.  The remaining conjuncts record
that on the normal-completion, cancellation and fatal-classification
paths all six descriptors are closed, a still-live child is killed, and
no child is left alive. -/
theorem c4_fd_discipline :
    (runGit [0] [] ⟨[("missing-binary")], false, [], none, 0, false⟩).openFds =
        [0, 1, 2, 3, 4, 5] ∧
    (runGit [0] [] ⟨[("missing-binary")], false, [], none, 0,
        false⟩).childSpawned = false ∧
    (runGit [0] [] ⟨[("git")], true, [ReadEv.rout [], ReadEv.rerr []], none, 0,
        true⟩).openFds = [] ∧
    (runGit [0] [] ⟨[("git")], true, [ReadEv.rout [], ReadEv.rerr []], none, 0,
        true⟩).childKilled = true ∧
    (runGit [0] [] ⟨[("git")], true, [ReadEv.rout [], ReadEv.rerr []], none, 0,
        true⟩).childAliveAfter = false ∧
    (runGit [0] [] ⟨[("git")], true, [], some 0, 0, true⟩).openFds = [] ∧
    (runGit [0] [] ⟨[("git")], true, [], some 0, 0, true⟩).sigintSent = true ∧
    (runGit [0] [] ⟨[("git")], true, [], some 0, 0, true⟩).childAliveAfter =
        false ∧
    (runGit [0] [] ⟨[("git")], true, [ReadEv.rout [], ReadEv.rerr []], none, 5,
        true⟩).openFds = [] ∧
    (runGit [0] [] ⟨[("git")], true, [ReadEv.rout [], ReadEv.rerr []], none, 5,
        true⟩).childAliveAfter = false :=
  ⟨rfl, rfl, rfl, rfl, rfl, rfl, rfl, rfl, rfl, rfl⟩

/-- C2 (amended): on a completed read loop, run_git classifies the exit
status against the two code tuples: a code in ok_returncodes returns the
two buffers split into newline-terminated records with terminators kept;
a code in ignore_returncodes (and not in ok_returncodes, which is
checked first) returns None; any other code raises a fatal error
carrying the decoded stderr buffer only — the target is attached by the
dispatcher's diagnostic, not by the error.  git_grep of the standalone
tool classifies 0/1/other the same way and does name the repo in its
error message. -/
theorem c2_exit_classification (okCodes ignoreCodes : List Int) (inp : RunInput)
    (ob eb : Bytes) (hspawn : inp.spawnOk = true)
    (hloop : readLoop inp.dieFrom inp.schedule 0 true true [] [] = .done ob eb) :
    ((inp.returncode ∈ okCodes →
        (runGit okCodes ignoreCodes inp).result =
          .ret (some (splitlines ob, splitlines eb))) ∧
      (inp.returncode ∉ okCodes → inp.returncode ∈ ignoreCodes →
        (runGit okCodes ignoreCodes inp).result = .ret none) ∧
      (inp.returncode ∉ okCodes → inp.returncode ∉ ignoreCodes →
        (runGit okCodes ignoreCodes inp).result = .gitError eb)) ∧
    (∀ (repo : String) (rc : Int) (so se : Bytes),
      (rc = 0 → gitGrep repo rc so se = .ok (some (splitlines so))) ∧
      (rc ≠ 0 → rc = 1 → gitGrep repo rc so se = .ok none) ∧
      (rc ≠ 0 → rc ≠ 1 → gitGrep repo rc so se =
        .error ("git grep error in repo " ++ repo ++ "\n" ++ decodeBytes se))) := by
  constructor
  · refine ⟨?_, ?_, ?_⟩
    · intro h1
      rw [runGit]
      simp [hspawn, hloop, h1]
    · intro h1 h2
      rw [runGit]
      simp [hspawn, hloop, h1, h2]
    · intro h1 h2
      rw [runGit]
      simp [hspawn, hloop, h1, h2]
  · intro repo rc so se
    refine ⟨?_, ?_, ?_⟩
    · intro h1
      rw [gitGrep]
      simp [h1]
    · intro h1 h2
      rw [gitGrep]
      simp [h1, h2]
    · intro h1 h2
      rw [gitGrep]
      simp [h1, h2]

theorem c2_exit_classification_witness :
    (runGit [0] [1]
        ⟨[("git"), ("--no-pager"), ("-C"), ("/work/a"), ("grep"), ("x")], true,
          [ReadEv.rout [104, 105, 10], ReadEv.rout [], ReadEv.rerr []],
          none, 0, false⟩).result =
      RunResult.ret (some (splitlines [104, 105, 10], splitlines [])) :=
  ((c2_exit_classification [0] [1]
      ⟨[("git"), ("--no-pager"), ("-C"), ("/work/a"), ("grep"), ("x")], true,
        [ReadEv.rout [104, 105, 10], ReadEv.rout [], ReadEv.rerr []],
        none, 0, false⟩
      [104, 105, 10] [] rfl rfl).1).1 (by simp)

/-- C2 counterexample: the claim says the fatal error carries the
decoded stderr buffer AND the target, but run_git raises
GitError(stderr.decode()) with no target in it: two runs whose commands
name different targets but whose children write the same stderr raise
byte-identical errors, so the error cannot carry the target. -/
theorem c2_error_lacks_target :
    (runGit [0] [1]
        ⟨[("git"), ("--no-pager"), ("-C"), ("/work/a"), ("status")], true,
          [ReadEv.rerr [98, 111, 111, 109], ReadEv.rerr [], ReadEv.rout []],
          none, 2, false⟩).result = RunResult.gitError [98, 111, 111, 109] ∧
    (runGit [0] [1]
        ⟨[("git"), ("--no-pager"), ("-C"), ("/work/b"), ("status")], true,
          [ReadEv.rerr [98, 111, 111, 109], ReadEv.rerr [], ReadEv.rout []],
          none, 2, false⟩).result = RunResult.gitError [98, 111, 111, 109] ∧
    ([("git"), ("--no-pager"), ("-C"), ("/work/a"), ("status")] : List String) ≠
      [("git"), ("--no-pager"), ("-C"), ("/work/b"), ("status")] :=
  ⟨rfl, rfl, by decide⟩

/-- C8: for a target whose command completes with an ok exit status,
concatenating the returned stdout records in order reproduces exactly
the byte sequence the child wrote to its stdout channel (arbitrary
bytes, control and escape bytes included); likewise for stderr. -/
theorem c8_round_trip (okCodes ignoreCodes : List Int) (inp : RunInput)
    (ob eb : Bytes) (hdie : inp.dieFrom = none) (hspawn : inp.spawnOk = true)
    (hloop : readLoop inp.dieFrom inp.schedule 0 true true [] [] = .done ob eb)
    (hok : inp.returncode ∈ okCodes) :
    ∃ so se, (runGit okCodes ignoreCodes inp).result = .ret (some (so, se)) ∧
      so.flatten = outWritten inp.schedule ∧
      se.flatten = errWritten inp.schedule := by
  rw [hdie] at hloop
  obtain ⟨h1, h2⟩ := readLoop_none_done inp.schedule 0 true true [] [] ob eb hloop
  refine ⟨splitlines ob, splitlines eb, ?_, ?_, ?_⟩
  · rw [runGit]
    simp [hspawn, hdie, hloop, hok]
  · rw [join_splitlines]
    simpa using h1
  · rw [join_splitlines]
    simpa using h2

theorem c8_round_trip_witness :
    ∃ so se,
      (runGit [0] []
          ⟨[("git")], true,
            [ReadEv.rout [27, 91, 51, 50, 109, 97, 10], ReadEv.rerr [101],
              ReadEv.rout [98], ReadEv.rout [], ReadEv.rerr []],
            none, 0, false⟩).result = RunResult.ret (some (so, se)) ∧
      so.flatten = outWritten
        [ReadEv.rout [27, 91, 51, 50, 109, 97, 10], ReadEv.rerr [101],
          ReadEv.rout [98], ReadEv.rout [], ReadEv.rerr []] ∧
      se.flatten = errWritten
        [ReadEv.rout [27, 91, 51, 50, 109, 97, 10], ReadEv.rerr [101],
          ReadEv.rout [98], ReadEv.rout [], ReadEv.rerr []] :=
  c8_round_trip [0] []
    ⟨[("git")], true,
      [ReadEv.rout [27, 91, 51, 50, 109, 97, 10], ReadEv.rerr [101],
        ReadEv.rout [98], ReadEv.rout [], ReadEv.rerr []],
      none, 0, false⟩
    [27, 91, 51, 50, 109, 97, 10, 98] [101] rfl rfl rfl (by simp)

theorem c7_broken_pipe_witness :
    (writeChunks (some 1) [[97], [98], [99]] 0 []).dest = StreamDest.devnull ∧
    (writeChunks (some 1) [[97], [98], [99]] 0 []).exitRaised = some 1 ∧
    (writeChunks (some 1) [[97], [98], [99]] 0 []).unhandled = false ∧
    (writeChunks (some 1) [[97], [98], [99]] 0 []).written =
      (([[97], [98], [99]] : List Bytes).take 1).flatten ∧
    (∀ w, writeToDest StreamDest.devnull w = []) :=
  c7_broken_pipe [[97], [98], [99]] 1 (by decide)

end GitTools
